import Mathlib

/-!
Verification development for the prompt-bench batch test-execution and
validation subsystem. The definitions below are a shallow embedding of the
Python sources: `src/test_runner.py` (TestRunner, DataSourceHandler),
`src/openai_validator.py` (OpenAIValidator), `src/validation_dialog.py`
(BatchValidationDialog) and `src/parsers/json_parser.py` (JSONParser).
Network and clock effects are abstracted as explicit function arguments;
the filesystem of persisted run documents is an association list keyed by
(projectName, runId) holding JSON documents.
-/

namespace PromptBench

/-- Embeds the JSON values manipulated by the Python code (the dicts, lists,
strings, booleans and numbers read and written with `json.load`/`json.dump`). -/
inductive Json where
  | null
  | bool (b : Bool)
  | num (n : Int)
  | str (s : String)
  | arr (elements : List Json)
  | obj (fields : List (String × Json))

/-- Embeds Python dict key lookup on a JSON object given as a field list:
the first binding of the key, or `none` when the key is absent. -/
def lookupField (fields : List (String × Json)) (key : String) : Option Json :=
  match fields with
  | [] => none
  | (k, v) :: rest => if k = key then some v else lookupField rest key

/-- Embeds `doc[key]` / `key in doc` on a JSON value: field lookup on an
object, `none` on every other shape. -/
def Json.getField? (j : Json) (key : String) : Option Json :=
  match j with
  | .obj fields => lookupField fields key
  | _ => none

/-- Embeds the manual-channel status written by `results_viewer`: one of the
Python values `True`, `False`, `"skipped"`. -/
inductive ManualStatus where
  | valid
  | invalid
  | skipped
deriving DecidableEq

/-- Embeds a `validations["manual"]` entry: `{status, timestamp}`. -/
structure ManualValidation where
  status : ManualStatus
  timestamp : String
deriving DecidableEq

/-- Embeds a `validations["openai"]` entry written by
`OpenAIValidator.validate_batch`: `{status, reason, model, response, timestamp}`. -/
structure OpenAIValidation where
  status : Bool
  reason : String
  model : String
  response : String
  timestamp : String
deriving DecidableEq

/-- Embeds the `validations` dict of a Result: each of the two channel keys
`"manual"` and `"openai"` is independently present or absent. -/
structure Validations where
  manual : Option ManualValidation
  openai : Option OpenAIValidation
deriving DecidableEq

/-- Embeds a Result record of a TestRun. The `validations` slot is an
`Option` because the `"validations"` key itself may be absent from the dict
(as in freshly created results). -/
structure Result where
  context : String
  modelResponse : String
  timestamp : String
  validations : Option Validations
deriving DecidableEq

/-- Embeds a TestRun record as built by `TestRunner.run_test`. -/
structure TestRun where
  runId : String
  projectName : String
  promptId : String
  promptText : String
  timestamp : String
  results : List Result
deriving DecidableEq

/-! ### JSON serialization of TestRun documents (what `json.dump` writes) -/

/-- Embeds the JSON form of a manual status: `True`/`False`/`"skipped"`. -/
def encodeManualStatus : ManualStatus → Json
  | .valid => .bool true
  | .invalid => .bool false
  | .skipped => .str "skipped"

/-- Decodes a manual status from its JSON form. -/
def decodeManualStatus : Json → Option ManualStatus
  | .bool true => some .valid
  | .bool false => some .invalid
  | .str s => if s = "skipped" then some .skipped else none
  | _ => none

/-- Embeds the JSON form of a manual validation entry. -/
def encodeManualValidation (v : ManualValidation) : Json :=
  .obj [("status", encodeManualStatus v.status), ("timestamp", .str v.timestamp)]

/-- Decodes a manual validation entry. -/
def decodeManualValidation (j : Json) : Option ManualValidation :=
  match j.getField? "status", j.getField? "timestamp" with
  | some s, some (.str ts) => (decodeManualStatus s).map fun st => ⟨st, ts⟩
  | _, _ => none

/-- Embeds the JSON form of an openai validation entry. -/
def encodeOpenAIValidation (v : OpenAIValidation) : Json :=
  .obj [("status", .bool v.status), ("reason", .str v.reason), ("model", .str v.model),
        ("response", .str v.response), ("timestamp", .str v.timestamp)]

/-- Decodes an openai validation entry. -/
def decodeOpenAIValidation (j : Json) : Option OpenAIValidation :=
  match j.getField? "status", j.getField? "reason", j.getField? "model",
        j.getField? "response", j.getField? "timestamp" with
  | some (.bool st), some (.str re), some (.str mo), some (.str rp), some (.str ts) =>
      some ⟨st, re, mo, rp, ts⟩
  | _, _, _, _, _ => none

/-- Embeds the JSON form of a `validations` dict: only the present channels
appear as keys. -/
def encodeValidations (v : Validations) : Json :=
  .obj ((v.manual.map fun m => ("manual", encodeManualValidation m)).toList ++
        (v.openai.map fun o => ("openai", encodeOpenAIValidation o)).toList)

/-- Decodes an optional field: absence of the key is `some none`, a present
but undecodable value is a failure. -/
def decodeOptionalWith (j : Json) (key : String) (dec : Json → Option α) :
    Option (Option α) :=
  match j.getField? key with
  | none => some none
  | some v => (dec v).map some

/-- Decodes a `validations` dict. -/
def decodeValidations (j : Json) : Option Validations :=
  match decodeOptionalWith j "manual" decodeManualValidation,
        decodeOptionalWith j "openai" decodeOpenAIValidation with
  | some m, some o => some ⟨m, o⟩
  | _, _ => none

/-- Embeds the JSON form of a Result record; the `"validations"` key is
present exactly when the slot is. -/
def encodeResult (r : Result) : Json :=
  .obj ([("context", .str r.context), ("modelResponse", .str r.modelResponse),
         ("timestamp", .str r.timestamp)] ++
        (r.validations.map fun v => ("validations", encodeValidations v)).toList)

/-- Decodes a Result record. -/
def decodeResult (j : Json) : Option Result :=
  match j.getField? "context", j.getField? "modelResponse", j.getField? "timestamp",
        decodeOptionalWith j "validations" decodeValidations with
  | some (.str c), some (.str m), some (.str t), some v => some ⟨c, m, t, v⟩
  | _, _, _, _ => none

/-- Decodes a list of Result records, failing if any entry fails. -/
def decodeResults : List Json → Option (List Result)
  | [] => some []
  | j :: rest =>
    match decodeResult j, decodeResults rest with
    | some r, some rs => some (r :: rs)
    | _, _ => none

/-- Embeds the JSON document `json.dump` writes for a TestRun. -/
def encodeTestRun (t : TestRun) : Json :=
  .obj [("runId", .str t.runId), ("projectName", .str t.projectName),
        ("promptId", .str t.promptId), ("promptText", .str t.promptText),
        ("timestamp", .str t.timestamp),
        ("results", .arr (t.results.map encodeResult))]

/-- Decodes a TestRun document. -/
def decodeTestRun (j : Json) : Option TestRun :=
  match j.getField? "runId", j.getField? "projectName", j.getField? "promptId",
        j.getField? "promptText", j.getField? "timestamp", j.getField? "results" with
  | some (.str rid), some (.str pn), some (.str pid), some (.str pt), some (.str ts),
    some (.arr rs) =>
      (decodeResults rs).map fun results => ⟨rid, pn, pid, pt, ts, results⟩
  | _, _, _, _, _, _ => none

/-! ### The result store (`data/results/<project>/<runId>.json`) -/

/-- Embeds the results directory: one JSON document per file, keyed by
(projectName, runId). -/
abbrev Store := List ((String × String) × Json)

/-- Embeds `file_path.exists()` / reading a file: the first document stored
under the key, if any. -/
def storeFind (store : Store) (key : String × String) : Option Json :=
  match store with
  | [] => none
  | (k, doc) :: rest => if k = key then some doc else storeFind rest key

/-- Embeds writing a file: the new document replaces any previous one under
the same key. -/
def storeWrite (store : Store) (key : String × String) (doc : Json) : Store :=
  (key, doc) :: store.filter fun e => e.1 ≠ key

/-- Embeds `TestRunner.save_results`: serializes the TestRun to the file
keyed by its own `projectName` and `runId`, overwriting any existing file. -/
def save_results (store : Store) (t : TestRun) : Store :=
  storeWrite store (t.projectName, t.runId) (encodeTestRun t)

/-- Embeds `TestRunner.load_results`: `none` when the file is missing or the
document does not decode to a TestRun. -/
def load_results (store : Store) (project_name run_id : String) : Option TestRun :=
  match storeFind store (project_name, run_id) with
  | none => none
  | some doc => decodeTestRun doc

/-- Embeds the error raised by `TestRunner.save_validation` on a missing run
file (`FileNotFoundError`). -/
inductive StoreError where
  | notFound (msg : String)
deriving DecidableEq

/-- Embeds `TestRunner.save_validation`: raises NotFound when no file exists
under (project_name, run_id); otherwise overwrites that file. -/
def save_validation (store : Store) (project_name run_id : String) (t : TestRun) :
    Except StoreError Store :=
  match storeFind store (project_name, run_id) with
  | none => .error (.notFound ("Test run not found: " ++ run_id))
  | some _ => .ok (storeWrite store (project_name, run_id) (encodeTestRun t))

/-- The state of the store after a `save_validation` call: unchanged when the
call raised. -/
def storeAfterSaveValidation (store : Store) (project_name run_id : String)
    (t : TestRun) : Store :=
  match save_validation store project_name run_id t with
  | .ok s => s
  | .error _ => store

/-! ### Test execution (`TestRunner.query_ollama_async` / `run_test`) -/

/-- Embeds the outcome of one HTTP round trip of `query_ollama_async`: the
request raised, `raise_for_status` raised, `response.json()` raised, or a
parsed JSON body came back. -/
inductive GenOutcome where
  | transportError (msg : String)
  | httpError (msg : String)
  | badJson (msg : String)
  | body (j : Json)

/-- Embeds `TestRunner.query_ollama_async`: every exception is absorbed into
the string `"Error: " ++ msg`; a good body yields its `"response"` field with
the documented default. -/
def query_ollama (outcome : GenOutcome) : String :=
  match outcome with
  | .transportError e => "Error: " ++ e
  | .httpError e => "Error: " ++ e
  | .badJson e => "Error: " ++ e
  | .body j =>
    match j.getField? "response" with
    | some (.str s) => s
    | _ => "No response received."

/-- Embeds the prompt assembly in `TestRunner.process_contexts_async`. -/
def full_prompt (prompt_text context : String) : String :=
  prompt_text ++ "\n\nContext:\n" ++ context

/-- Embeds `TestRunner.process_contexts_async`: one generate call per context
(`net` gives each request its network outcome, `clock` the completion
timestamps); results are assembled in input order, without a `validations`
key. -/
def process_contexts (net : String → GenOutcome) (clock : Nat → String)
    (prompt_text : String) : List String → Nat → List Result
  | [], _ => []
  | context :: rest, i =>
    { context := context,
      modelResponse := query_ollama (net (full_prompt prompt_text context)),
      timestamp := clock i,
      validations := none } :: process_contexts net clock prompt_text rest (i + 1)

/-- Embeds `TestRunner.run_test`: builds the TestRun from the processed
contexts (`stamp` is the `%Y%m%d_%H%M%S` runId stamp, `now_iso` the ISO
timestamp) and persists it, returning the run and the updated store. -/
def run_test (net : String → GenOutcome) (clock : Nat → String)
    (stamp now_iso : String) (store : Store)
    (project_name prompt_id prompt_text : String) (contexts : List String) :
    TestRun × Store :=
  let results := process_contexts net clock prompt_text contexts 0
  let test_run : TestRun :=
    { runId := "run_" ++ stamp, projectName := project_name, promptId := prompt_id,
      promptText := prompt_text, timestamp := now_iso, results := results }
  (test_run, save_results store test_run)

/-! ### Batch validation (`OpenAIValidator.validate_batch`) -/

/-- Embeds `"validations" in result and "openai" in result["validations"]`. -/
def hasOpenai (r : Result) : Bool :=
  match r.validations with
  | none => false
  | some v => v.openai.isSome

/-- The manual channel of a result, `none` when the `validations` key or the
`"manual"` channel is absent. -/
def manualOf (r : Result) : Option ManualValidation :=
  match r.validations with
  | none => none
  | some v => v.manual

/-- The openai channel of a result, `none` when the `validations` key or the
`"openai"` channel is absent. -/
def openaiOf (r : Result) : Option OpenAIValidation :=
  match r.validations with
  | none => none
  | some v => v.openai

/-- Embeds the in-place mutation in `process_single_validation`: create the
`validations` dict if absent, then set its `"openai"` key. -/
def setOpenai (r : Result) (v : OpenAIValidation) : Result :=
  match r.validations with
  | none => { r with validations := some ⟨none, some v⟩ }
  | some vs => { r with validations := some { vs with openai := some v } }

/-- Number of results lacking the openai channel. -/
def countUnvalidated (rs : List Result) : Nat :=
  rs.countP fun r => !hasOpenai r

/-- Number of results with a populated openai channel. -/
def countValidated (rs : List Result) : Nat :=
  rs.countP fun r => hasOpenai r

/-- Embeds the effect on the results list of validating the first `count`
results lacking the openai channel, each mutated in place with the judge
outcome for that result. -/
def updateUnvalidated (judge : Result → OpenAIValidation) :
    List Result → Nat → List Result
  | [], _ => []
  | rs, 0 => rs
  | r :: rs, count + 1 =>
    if hasOpenai r then r :: updateUnvalidated judge rs (count + 1)
    else setOpenai r (judge r) :: updateUnvalidated judge rs count

/-- Embeds the statistics dict returned by `OpenAIValidator.validate_batch`. -/
structure BatchStats where
  total : Nat
  validated : Nat
  success : Nat
  failed : Nat
  success_rate : Rat
deriving DecidableEq

/-- Embeds `OpenAIValidator.validate_batch`: selects the results lacking the
openai channel in run order, limits the selection to `count`, judges each
selected result (`judge` abstracts `validate_response` plus the stored
timestamp), mutates those results in place and computes the statistics. -/
def validate_batch (judge : Result → OpenAIValidation) (test_run : TestRun)
    (count : Nat) : TestRun × BatchStats :=
  let unvalidated := test_run.results.filter fun r => !hasOpenai r
  let to_validate := unvalidated.take count
  let total := to_validate.length
  let results2 := updateUnvalidated judge test_run.results count
  let statuses := to_validate.map fun r => (judge r).status
  let validated := statuses.length
  let success := (statuses.filter fun b => b).length
  let failed := validated - success
  ({ test_run with results := results2 },
   { total := total, validated := validated, success := success, failed := failed,
     success_rate := if validated > 0 then (success : Rat) / (validated : Rat) * 100 else 0 })

/-- Embeds `BatchValidationDialog._validate_batch` with `set_start_index`:
for a positive start index the dialog passes a copy of the run whose
`results` is the slice from that index, and the mutated dicts of the slice
are the same objects as in the original list, so the original list becomes
its untouched first `start_index` entries followed by the validated slice. -/
def validate_batch_from (judge : Result → OpenAIValidation) (test_run : TestRun)
    (start_index count : Nat) : TestRun :=
  if start_index > 0 then
    { test_run with results :=
        test_run.results.take start_index ++
          (validate_batch judge
            { test_run with results := test_run.results.drop start_index } count).1.results }
  else (validate_batch judge test_run count).1

/-! ### Judge calls (`OpenAIValidator.validate_response`) -/

/-- Embeds the parse of the judge reply content (`json.loads` of the message
content string): either it raised or it produced a JSON value. -/
inductive ContentParse where
  | parseError (msg : String)
  | parsed (j : Json)

/-- Embeds the outcome of one judge HTTP round trip: the request raised,
`raise_for_status` raised, the completion envelope was unusable
(`response.json()` or the `choices[0].message.content` extraction raised),
or a content string came back together with its parse. -/
inductive JudgeOutcome where
  | transportError (msg : String)
  | httpError (msg : String)
  | badEnvelope (msg : String)
  | content (raw : String) (p : ContentParse)

/-- Embeds the dict returned by `validate_response`: `status` and `reason`
are the raw JSON values taken from the judge reply (the failure branch puts
a `False` and a string there), `response` is the raw content string and is
absent on failure. -/
structure JudgeResult where
  type : String
  model : String
  status : Json
  reason : Json
  response : Option String

/-- Embeds the `except` branch of `validate_response`. -/
def validationFailure (model_name e : String) : JudgeResult :=
  { type := "openai", model := model_name, status := .bool false,
    reason := .str ("Validation failed: " ++ e), response := none }

/-- Embeds `OpenAIValidator.validate_response`: any exception in the try
block (transport, HTTP status, envelope extraction, content parse, missing
`valid` or `reason` key) is absorbed into a failure judgment. -/
def validate_response (model_name : String) (outcome : JudgeOutcome) : JudgeResult :=
  match outcome with
  | .transportError e => validationFailure model_name e
  | .httpError e => validationFailure model_name e
  | .badEnvelope e => validationFailure model_name e
  | .content _ (.parseError e) => validationFailure model_name e
  | .content raw (.parsed j) =>
    match j.getField? "valid" with
    | none => validationFailure model_name "\x27valid\x27"
    | some v =>
      match j.getField? "reason" with
      | none => validationFailure model_name "\x27reason\x27"
      | some re =>
        { type := "openai", model := model_name, status := v, reason := re,
          response := some raw }

/-- A failure-shaped judgment: status `False`, reason beginning
`"Validation failed:"`, and no `response` field. -/
def failureShaped (v : JudgeResult) : Prop :=
  v.status = Json.bool false ∧
  (∃ cause, v.reason = Json.str ("Validation failed: " ++ cause)) ∧
  v.response = none

/-! ### Listing and statistics (`TestRunner.list_test_runs`) -/

/-- Embeds the `stats.manual` dict computed by `list_test_runs`. -/
structure ManualStats where
  validated : Nat
  success : Nat
  failed : Nat
  skipped : Nat
  progress : Rat
  successRate : Rat

/-- Embeds the `stats.openai` dict computed by `list_test_runs`. -/
structure OpenaiStats where
  validated : Nat
  success : Nat
  failed : Nat
  progress : Rat
  successRate : Rat

/-- Embeds the `stats` dict computed by `list_test_runs`. -/
structure RunStats where
  total : Nat
  manual : ManualStats
  openai : OpenaiStats

/-- Embeds one entry of the list returned by `list_test_runs`. -/
structure RunListing where
  runId : String
  timestamp : String
  promptId : String
  stats : RunStats

/-- The manual status of a result, when the manual channel is populated. -/
def manualStatusOf (r : Result) : Option ManualStatus :=
  (manualOf r).map ManualValidation.status

/-- The openai status of a result, when the openai channel is populated. -/
def openaiStatusOf (r : Result) : Option Bool :=
  (openaiOf r).map OpenAIValidation.status

/-- Embeds the statistics computation of `TestRunner.list_test_runs`,
recomputed fresh from `results` at read time. -/
def computeStats (t : TestRun) : RunStats :=
  let total := t.results.length
  let manual_validated := t.results.countP fun r => (manualOf r).isSome
  let manual_success := t.results.countP fun r =>
    decide (manualStatusOf r = some ManualStatus.valid)
  let manual_failed := t.results.countP fun r =>
    decide (manualStatusOf r = some ManualStatus.invalid)
  let manual_skipped := t.results.countP fun r =>
    decide (manualStatusOf r = some ManualStatus.skipped)
  let openai_validated := t.results.countP fun r => (openaiOf r).isSome
  let openai_success := t.results.countP fun r => decide (openaiStatusOf r = some true)
  let openai_failed := t.results.countP fun r => decide (openaiStatusOf r = some false)
  { total := total,
    manual :=
      { validated := manual_validated, success := manual_success,
        failed := manual_failed, skipped := manual_skipped,
        progress := if total > 0 then (manual_validated : Rat) / (total : Rat) * 100 else 0,
        successRate := if manual_validated - manual_skipped > 0 then
            (manual_success : Rat) / ((manual_validated - manual_skipped : Nat) : Rat) * 100
          else 0 },
    openai :=
      { validated := openai_validated, success := openai_success, failed := openai_failed,
        progress := if total > 0 then (openai_validated : Rat) / (total : Rat) * 100 else 0,
        successRate := if openai_validated > 0 then
            (openai_success : Rat) / (openai_validated : Rat) * 100
          else 0 } }

/-- Embeds the listing entry `list_test_runs` builds for one loaded run. -/
def listingOf (t : TestRun) : RunListing :=
  { runId := t.runId, timestamp := t.timestamp, promptId := t.promptId,
    stats := computeStats t }

/-- Embeds the `run_*.json` glob filter on a run file name: the runId part
of the file name begins with `run_`. -/
def isRunFile (run_id : String) : Bool :=
  "run_".data.isPrefixOf run_id.data

/-- Embeds `TestRunner.list_test_runs`: the project's files matching the
`run_*.json` glob whose documents load as TestRuns (others are skipped),
each summarized with fresh statistics, sorted by timestamp descending. -/
def list_test_runs (store : Store) (project_name : String) : List RunListing :=
  let files := store.filter fun e =>
    decide (e.1.1 = project_name) && isRunFile e.1.2
  let runs := files.filterMap fun e => (decodeTestRun e.2).map listingOf
  runs.mergeSort fun a b => decide (b.timestamp ≤ a.timestamp)

/-! ### The JSON context source (`parsers/json_parser.py`, `JSONParser.parse`) -/

/-- Embeds the failure modes of `JSONParser.parse`: `FileNotFoundError` and
`ValueError` (the FormatError of the contract). -/
inductive ParseError where
  | notFound (msg : String)
  | formatError (msg : String)
deriving DecidableEq

/-- Embeds what the filesystem and `json.load` give `JSONParser.parse`: a
missing file, text that fails to parse as JSON, or a parsed JSON value. -/
inductive ParseInput where
  | missing
  | badSyntax (msg : String)
  | parsed (data : Json)

/-- Embeds `all(isinstance(c, str) for c in contexts)` together with the
extraction of the strings: `none` when some item is not a string. -/
def stringItems : List Json → Option (List String)
  | [] => some []
  | Json.str s :: rest => (stringItems rest).map fun ss => s :: ss
  | _ :: _ => none

/-- Embeds the `documents` loop of `JSONParser.parse`: each document must be
an object with a string `content` field; `i` is the index reported in
errors. -/
def docContents : List Json → Nat → Except String (List String)
  | [], _ => .ok []
  | Json.obj fields :: rest, i =>
    match lookupField fields "content" with
    | some (Json.str s) => (docContents rest (i + 1)).map fun ss => s :: ss
    | some _ =>
        .error ("\x27content\x27 field at index " ++ toString i ++ " must be a string")
    | none =>
        .error ("Document at index " ++ toString i ++ " missing \x27content\x27 field")
  | _ :: _, i => .error ("Document at index " ++ toString i ++ " must be an object")

/-- Embeds the re-wrapping of ValueErrors raised inside the try block of
`JSONParser.parse` by its final `except` clause. -/
def wrapMsg (e : String) : String := "Failed to parse JSON file: " ++ e

/-- Embeds `JSONParser.parse` of `src/parsers/json_parser.py`: the `contexts`
array of strings is tried first and takes precedence; otherwise a
`documents` array of objects with string `content` fields; every structural
violation is a FormatError. -/
def jsonParserParse (json_path : String) (input : ParseInput) :
    Except ParseError (List String) :=
  match input with
  | .missing => .error (.notFound ("File not found: " ++ json_path))
  | .badSyntax e => .error (.formatError ("Invalid JSON syntax: " ++ e))
  | .parsed data =>
    match data with
    | Json.obj fields =>
      match lookupField fields "contexts" with
      | some (Json.arr items) =>
        match stringItems items with
        | some ss => .ok ss
        | none =>
            .error (.formatError (wrapMsg "All items in \x27contexts\x27 must be strings"))
      | some _ => .error (.formatError (wrapMsg "\x27contexts\x27 must be an array"))
      | none =>
        match lookupField fields "documents" with
        | some (Json.arr docs) =>
          match docContents docs 0 with
          | .ok ss => .ok ss
          | .error e => .error (.formatError (wrapMsg e))
        | some _ => .error (.formatError (wrapMsg "\x27documents\x27 must be an array"))
        | none =>
            .error (.formatError (wrapMsg
              ("Invalid JSON format. Expected either:\n" ++
               "\x7b\"contexts\": [\"text1\", \"text2\", ...]\x7d or\n" ++
               "\x7b\"documents\": [\x7b\"content\": \"text1\"\x7d, " ++
               "\x7b\"content\": \"text2\"\x7d, ...]\x7d")))
    | _ => .error (.formatError (wrapMsg "JSON root must be an object"))

/-- The `content` field of a well-formed document object. -/
def docContent? (d : Json) : Option String :=
  match d with
  | Json.obj fields =>
    match lookupField fields "content" with
    | some (Json.str s) => some s
    | _ => none
  | _ => none

/-! ### Sample values for the concrete witnesses -/

/-- A fresh result as `process_contexts_async` builds them. -/
def sampleResult : Result :=
  { context := "a", modelResponse := "yes", timestamp := "t1", validations := none }

/-- A persisted run with a single unvalidated result. -/
def sampleRun : TestRun :=
  { runId := "run_20240101_000000", projectName := "proj", promptId := "prompt_1",
    promptText := "Say yes", timestamp := "2024-01-01T00:00:00",
    results := [sampleResult] }

/-- A store holding exactly the document of `sampleRun`. -/
def sampleStore : Store :=
  [(("proj", "run_20240101_000000"), encodeTestRun sampleRun)]

/-- A judge that accepts every response. -/
def sampleJudge : Result → OpenAIValidation :=
  fun _ => { status := true, reason := "ok", model := "gpt-4", response := "raw",
             timestamp := "t2" }

/-! ## Round-trip lemmas for the TestRun codec -/

theorem decodeManualStatus_encode (s : ManualStatus) :
    decodeManualStatus (encodeManualStatus s) = some s := by
  cases s <;> rfl

theorem decodeManualValidation_encode (v : ManualValidation) :
    decodeManualValidation (encodeManualValidation v) = some v := by
  obtain ⟨st, ts⟩ := v
  cases st <;> rfl

theorem decodeOpenAIValidation_encode (v : OpenAIValidation) :
    decodeOpenAIValidation (encodeOpenAIValidation v) = some v := by
  rfl

theorem decodeValidations_encode (v : Validations) :
    decodeValidations (encodeValidations v) = some v := by
  obtain ⟨m, o⟩ := v
  cases m with
  | none => cases o <;> rfl
  | some mv =>
    obtain ⟨st, ts⟩ := mv
    cases st <;> cases o <;> rfl

theorem decodeResult_encode (r : Result) :
    decodeResult (encodeResult r) = some r := by
  obtain ⟨c, m, t, v⟩ := r
  cases v with
  | none => rfl
  | some vs =>
    obtain ⟨mv, ov⟩ := vs
    cases mv with
    | none => cases ov <;> rfl
    | some mvv =>
      obtain ⟨st, ts⟩ := mvv
      cases st <;> cases ov <;> rfl

theorem decodeResults_encode (rs : List Result) :
    decodeResults (rs.map encodeResult) = some rs := by
  induction rs with
  | nil => rfl
  | cons r rest ih => simp [List.map, decodeResults, decodeResult_encode, ih]

theorem decodeTestRun_encode (t : TestRun) :
    decodeTestRun (encodeTestRun t) = some t := by
  obtain ⟨rid, pn, pid, pt, ts, rs⟩ := t
  simp [encodeTestRun, decodeTestRun, Json.getField?, lookupField, decodeResults_encode]

theorem storeFind_storeWrite (store : Store) (key : String × String) (doc : Json) :
    storeFind (storeWrite store key doc) key = some doc := by
  simp [storeWrite, storeFind]

/-! ## C3: save/load round-trip -/

/-- C3: saving a TestRun and loading it back by the same
(projectName, runId) yields a value equal to the original. -/
theorem save_load_roundtrip (store : Store) (t : TestRun) :
    load_results (save_results store t) t.projectName t.runId = some t := by
  unfold load_results save_results
  rw [storeFind_storeWrite]
  exact decodeTestRun_encode t

/-! ## C4: saveValidation on a missing run -/

/-- C4: when no file is stored under (project_name, run_id),
`save_validation` fails with NotFound and the store is unchanged: it never
creates a new run file. -/
theorem save_validation_missing_run (store : Store) (project_name run_id : String)
    (t : TestRun) (h : storeFind store (project_name, run_id) = none) :
    save_validation store project_name run_id t =
      .error (.notFound ("Test run not found: " ++ run_id)) ∧
    storeAfterSaveValidation store project_name run_id t = store := by
  refine ⟨?_, ?_⟩
  · unfold save_validation
    rw [h]
  · unfold storeAfterSaveValidation save_validation
    rw [h]

/-- Witness for C4: the empty store has no file for ("proj", "run_missing"),
and the call fails with NotFound there. -/
theorem save_validation_missing_run_witness :
    storeFind [] ("proj", "run_missing") = none ∧
    save_validation [] "proj" "run_missing" sampleRun =
      .error (.notFound ("Test run not found: run_missing")) :=
  ⟨rfl, (save_validation_missing_run [] "proj" "run_missing" sampleRun rfl).1⟩

/-! ## Execution lemmas (`process_contexts` / `run_test`) -/

theorem process_contexts_map_context (net : String → GenOutcome)
    (clock : Nat → String) (prompt_text : String) :
    ∀ (contexts : List String) (i : Nat),
      (process_contexts net clock prompt_text contexts i).map Result.context = contexts := by
  intro contexts
  induction contexts with
  | nil => intro i; rfl
  | cons c rest ih => intro i; simp [process_contexts, ih]

theorem process_contexts_length (net : String → GenOutcome)
    (clock : Nat → String) (prompt_text : String)
    (contexts : List String) (i : Nat) :
    (process_contexts net clock prompt_text contexts i).length = contexts.length := by
  have h := process_contexts_map_context net clock prompt_text contexts i
  calc (process_contexts net clock prompt_text contexts i).length
      = ((process_contexts net clock prompt_text contexts i).map Result.context).length := by
        rw [List.length_map]
    _ = contexts.length := by rw [h]

theorem process_contexts_map_modelResponse (net : String → GenOutcome)
    (clock : Nat → String) (prompt_text : String) :
    ∀ (contexts : List String) (i : Nat),
      (process_contexts net clock prompt_text contexts i).map Result.modelResponse =
        contexts.map fun c => query_ollama (net (full_prompt prompt_text c)) := by
  intro contexts
  induction contexts with
  | nil => intro i; rfl
  | cons c rest ih => intro i; simp [process_contexts, ih]

theorem process_contexts_map_validations (net : String → GenOutcome)
    (clock : Nat → String) (prompt_text : String) :
    ∀ (contexts : List String) (i : Nat),
      (process_contexts net clock prompt_text contexts i).map Result.validations =
        contexts.map fun _ => (none : Option Validations) := by
  intro contexts
  induction contexts with
  | nil => intro i; rfl
  | cons c rest ih => intro i; simp [process_contexts, ih]

/-! ## C2: result count and order of `run_test` -/

/-- C2: `run_test` returns a TestRun with exactly one result per context, and
the i-th result's context is the i-th input context: final order equals
input order. -/
theorem run_test_results_order (net : String → GenOutcome) (clock : Nat → String)
    (stamp now_iso : String) (store : Store)
    (project_name prompt_id prompt_text : String) (contexts : List String) :
    (run_test net clock stamp now_iso store project_name prompt_id prompt_text
        contexts).1.results.length = contexts.length ∧
    (run_test net clock stamp now_iso store project_name prompt_id prompt_text
        contexts).1.results.map Result.context = contexts ∧
    ∀ i : Nat,
      ((run_test net clock stamp now_iso store project_name prompt_id prompt_text
          contexts).1.results[i]?).map Result.context = contexts[i]? := by
  have hres : (run_test net clock stamp now_iso store project_name prompt_id
      prompt_text contexts).1.results =
      process_contexts net clock prompt_text contexts 0 := rfl
  rw [hres]
  refine ⟨process_contexts_length net clock prompt_text contexts 0,
          process_contexts_map_context net clock prompt_text contexts 0, ?_⟩
  intro i
  rw [← List.getElem?_map, process_contexts_map_context]

/-! ## C7: generation failures become response data -/

/-- C7: on any transport or HTTP failure (and on an unreadable body),
`query_ollama` returns a synthetic string embedding the error text instead
of raising, and every result of a run carries exactly the `query_ollama`
output for its context as `modelResponse`, so results are always
populated. -/
theorem query_ollama_failure_policy (e : String) (net : String → GenOutcome)
    (clock : Nat → String) (prompt_text : String) (contexts : List String) :
    query_ollama (.transportError e) = "Error: " ++ e ∧
    query_ollama (.httpError e) = "Error: " ++ e ∧
    query_ollama (.badJson e) = "Error: " ++ e ∧
    (process_contexts net clock prompt_text contexts 0).map Result.modelResponse =
      contexts.map fun c => query_ollama (net (full_prompt prompt_text c)) :=
  ⟨rfl, rfl, rfl, process_contexts_map_modelResponse net clock prompt_text contexts 0⟩

/-! ## C8: `validations` on freshly created results -/

/-- Counterexample for C8: on a freshly created run the `validations` key is
absent from every result dict, not present as an empty mapping: the claim
that every result has a present, empty `validations` slot is false. -/
theorem run_test_validations_not_empty_map :
    ¬ ∀ r ∈ (run_test (fun _ => GenOutcome.transportError "down") (fun _ => "t0")
        "20240101_000000" "2024-01-01T00:00:00" [] "proj" "prompt_1" "Summarize"
        ["a"]).1.results,
      r.validations = some { manual := none, openai := none } := by
  decide

/-- C8 (amended): every result of a TestRun freshly created by `run_test`
has no `validations` key at all; all consumers treat that absence as zero
populated channels. -/
theorem run_test_validations_absent (net : String → GenOutcome)
    (clock : Nat → String) (stamp now_iso : String) (store : Store)
    (project_name prompt_id prompt_text : String) (contexts : List String) :
    (run_test net clock stamp now_iso store project_name prompt_id prompt_text
        contexts).1.results.map Result.validations =
      contexts.map fun _ => (none : Option Validations) :=
  process_contexts_map_validations net clock prompt_text contexts 0

/-! ## Batch-validation lemmas (`updateUnvalidated`) -/

theorem hasOpenai_setOpenai (r : Result) (v : OpenAIValidation) :
    hasOpenai (setOpenai r v) = true := by
  obtain ⟨c, m, t, vs⟩ := r
  cases vs <;> rfl

theorem manualOf_setOpenai (r : Result) (v : OpenAIValidation) :
    manualOf (setOpenai r v) = manualOf r := by
  obtain ⟨c, m, t, vs⟩ := r
  cases vs <;> rfl

theorem context_setOpenai (r : Result) (v : OpenAIValidation) :
    (setOpenai r v).context = r.context := by
  obtain ⟨c, m, t, vs⟩ := r
  cases vs <;> rfl

theorem modelResponse_setOpenai (r : Result) (v : OpenAIValidation) :
    (setOpenai r v).modelResponse = r.modelResponse := by
  obtain ⟨c, m, t, vs⟩ := r
  cases vs <;> rfl

theorem timestamp_setOpenai (r : Result) (v : OpenAIValidation) :
    (setOpenai r v).timestamp = r.timestamp := by
  obtain ⟨c, m, t, vs⟩ := r
  cases vs <;> rfl

theorem countUnvalidated_cons (r : Result) (rs : List Result) :
    countUnvalidated (r :: rs) =
      countUnvalidated rs + if hasOpenai r then 0 else 1 := by
  cases h : hasOpenai r <;> simp [countUnvalidated, List.countP_cons, h]

theorem updateUnvalidated_nil (judge : Result → OpenAIValidation) (count : Nat) :
    updateUnvalidated judge [] count = [] := by
  cases count <;> rfl

theorem updateUnvalidated_zero (judge : Result → OpenAIValidation) (rs : List Result) :
    updateUnvalidated judge rs 0 = rs := by
  cases rs <;> rfl

theorem updateUnvalidated_succ (judge : Result → OpenAIValidation)
    (r : Result) (rs : List Result) (count : Nat) :
    updateUnvalidated judge (r :: rs) (count + 1) =
      if hasOpenai r then r :: updateUnvalidated judge rs (count + 1)
      else setOpenai r (judge r) :: updateUnvalidated judge rs count := rfl

theorem updateUnvalidated_length (judge : Result → OpenAIValidation) :
    ∀ (rs : List Result) (count : Nat),
      (updateUnvalidated judge rs count).length = rs.length := by
  intro rs
  induction rs with
  | nil => intro count; rw [updateUnvalidated_nil]
  | cons r rest ih =>
    intro count
    cases count with
    | zero => rw [updateUnvalidated_zero]
    | succ count =>
      rw [updateUnvalidated_succ]
      by_cases hr : hasOpenai r <;> simp [hr, ih]

theorem updateUnvalidated_map_eq (judge : Result → OpenAIValidation)
    {α : Type} (f : Result → α) (hf : ∀ r v, f (setOpenai r v) = f r) :
    ∀ (rs : List Result) (count : Nat),
      (updateUnvalidated judge rs count).map f = rs.map f := by
  intro rs
  induction rs with
  | nil => intro count; rw [updateUnvalidated_nil]
  | cons r rest ih =>
    intro count
    cases count with
    | zero => rw [updateUnvalidated_zero]
    | succ count =>
      rw [updateUnvalidated_succ]
      by_cases hr : hasOpenai r <;> simp [hr, ih, hf]

theorem countValidated_updateUnvalidated (judge : Result → OpenAIValidation) :
    ∀ (rs : List Result) (count : Nat), count ≤ countUnvalidated rs →
      countValidated (updateUnvalidated judge rs count) =
        countValidated rs + count := by
  intro rs
  induction rs with
  | nil =>
    intro count hc
    have h0 : count = 0 := Nat.le_zero.mp hc
    subst h0
    rfl
  | cons r rest ih =>
    intro count hc
    cases count with
    | zero => rw [updateUnvalidated_zero, Nat.add_zero]
    | succ count =>
      rw [countUnvalidated_cons] at hc
      rw [updateUnvalidated_succ]
      by_cases hr : hasOpenai r
      · rw [if_pos hr, Nat.add_zero] at hc
        have h2 := ih (count + 1) hc
        rw [if_pos hr]
        simp only [countValidated, List.countP_cons, hr, if_pos] at h2 ⊢
        omega
      · rw [if_neg hr] at hc
        have hc2 : count ≤ countUnvalidated rest := by omega
        have h2 := ih count hc2
        rw [if_neg hr]
        simp only [countValidated, List.countP_cons, hr, hasOpenai_setOpenai,
          Bool.false_eq_true, ite_false, ite_true] at h2 ⊢
        omega

theorem updateUnvalidated_getElem? (judge : Result → OpenAIValidation) :
    ∀ (rs : List Result) (count i : Nat),
      (updateUnvalidated judge rs count)[i]? =
        (rs[i]?).map fun r =>
          if hasOpenai r = true ∨ count ≤ countUnvalidated (rs.take i) then r
          else setOpenai r (judge r) := by
  intro rs
  induction rs with
  | nil => intro count i; rw [updateUnvalidated_nil]; simp
  | cons r rest ih =>
    intro count i
    cases count with
    | zero =>
      rw [updateUnvalidated_zero]
      cases h : (r :: rest)[i]? <;> simp [h]
    | succ count =>
      rw [updateUnvalidated_succ]
      by_cases hr : hasOpenai r
      · rw [if_pos hr]
        cases i with
        | zero => simp [hr]
        | succ i =>
          rw [List.getElem?_cons_succ, List.getElem?_cons_succ, ih]
          have ht : countUnvalidated ((r :: rest).take (i + 1)) =
              countUnvalidated (rest.take i) := by
            rw [List.take_succ_cons, countUnvalidated_cons, if_pos hr, Nat.add_zero]
          rw [ht]
      · rw [if_neg hr]
        cases i with
        | zero =>
          simp [hr, List.take_zero, countUnvalidated]
        | succ i =>
          rw [List.getElem?_cons_succ, List.getElem?_cons_succ, ih]
          have ht : countUnvalidated ((r :: rest).take (i + 1)) =
              countUnvalidated (rest.take i) + 1 := by
            rw [List.take_succ_cons, countUnvalidated_cons, if_neg hr]
          rw [ht]
          simp only [Nat.add_le_add_iff_right]

theorem validate_batch_results_eq (judge : Result → OpenAIValidation)
    (t : TestRun) (count : Nat) :
    (validate_batch judge t count).1.results =
      updateUnvalidated judge t.results count := rfl

/-! ## C1: frame effect of `validate_batch` -/

/-- C1: on a run with at least `k` results lacking the openai channel
(`1 ≤ k`), `validate_batch` keeps the result count, populates the openai
channel of exactly `k` additional results — per index, a result is touched
exactly when it lacked the channel and fewer than `k` unvalidated results
precede it, i.e. the first `k` unvalidated ones in run order — and leaves
the manual channel, context, modelResponse and timestamp of every result
unchanged. -/
theorem validate_batch_frame (judge : Result → OpenAIValidation) (t : TestRun)
    (k : Nat) (hk1 : 1 ≤ k) (hku : k ≤ countUnvalidated t.results) :
    (validate_batch judge t k).1.results.length = t.results.length ∧
    countValidated (validate_batch judge t k).1.results =
      countValidated t.results + k ∧
    (validate_batch judge t k).1.results.map manualOf = t.results.map manualOf ∧
    (validate_batch judge t k).1.results.map Result.context =
      t.results.map Result.context ∧
    (validate_batch judge t k).1.results.map Result.modelResponse =
      t.results.map Result.modelResponse ∧
    (validate_batch judge t k).1.results.map Result.timestamp =
      t.results.map Result.timestamp ∧
    ∀ i : Nat, (validate_batch judge t k).1.results[i]? =
      (t.results[i]?).map fun r =>
        if hasOpenai r = true ∨ k ≤ countUnvalidated (t.results.take i) then r
        else setOpenai r (judge r) := by
  rw [validate_batch_results_eq]
  exact ⟨updateUnvalidated_length judge t.results k,
         countValidated_updateUnvalidated judge t.results k hku,
         updateUnvalidated_map_eq judge manualOf manualOf_setOpenai t.results k,
         updateUnvalidated_map_eq judge Result.context context_setOpenai t.results k,
         updateUnvalidated_map_eq judge Result.modelResponse modelResponse_setOpenai
           t.results k,
         updateUnvalidated_map_eq judge Result.timestamp timestamp_setOpenai
           t.results k,
         fun i => updateUnvalidated_getElem? judge t.results k i⟩

/-- Witness for C1: on `sampleRun`, which has one unvalidated result, a
count-1 batch is in range and preserves the result count. -/
theorem validate_batch_frame_witness :
    (1 ≤ 1 ∧ 1 ≤ countUnvalidated sampleRun.results) ∧
    (validate_batch sampleJudge sampleRun 1).1.results.length =
      sampleRun.results.length :=
  ⟨⟨Nat.le_refl 1, by decide⟩,
   (validate_batch_frame sampleJudge sampleRun 1 (Nat.le_refl 1) (by decide)).1⟩

/-! ## C9: selection order and the start-index restriction -/

theorem countUnvalidated_take_pos (rs : List Result) (r : Result) (j : Nat)
    (h0 : rs[0]? = some r) (hun : hasOpenai r = false) :
    1 ≤ countUnvalidated (rs.take (j + 1)) := by
  cases rs with
  | nil => simp at h0
  | cons a l =>
    rw [List.getElem?_cons_zero] at h0
    have ha : a = r := by injection h0
    subst ha
    rw [List.take_succ_cons, countUnvalidated_cons, if_neg (by simp [hun])]
    omega

/-- C9: `validate_batch` selects the results lacking the openai channel in
run order — per index, a result is judged exactly when it lacks the channel
and fewer than `count` unvalidated results precede it — and the dialog's
caller-supplied start index restricts the selection to the suffix from that
offset, so that when the result at the offset is unvalidated a count-1 batch
validates exactly that result and leaves every other index unchanged. -/
theorem validate_batch_offset (judge : Result → OpenAIValidation) (t : TestRun)
    (off : Nat) (r : Result) (hr : t.results[off]? = some r)
    (hun : hasOpenai r = false) :
    (∀ count i : Nat, (validate_batch judge t count).1.results[i]? =
       (t.results[i]?).map fun x =>
         if hasOpenai x = true ∨ count ≤ countUnvalidated (t.results.take i) then x
         else setOpenai x (judge x)) ∧
    (validate_batch_from judge t off 1).results[off]? =
      some (setOpenai r (judge r)) ∧
    (∀ i : Nat, i ≠ off →
       (validate_batch_from judge t off 1).results[i]? = t.results[i]?) := by
  refine ⟨?_, ?_, ?_⟩
  · intro count i
    rw [validate_batch_results_eq]
    exact updateUnvalidated_getElem? judge t.results count i
  · cases off with
    | zero =>
      have hfrom : (validate_batch_from judge t 0 1).results =
          updateUnvalidated judge t.results 1 := by
        unfold validate_batch_from
        rw [if_neg (by omega)]
        rfl
      rw [hfrom, updateUnvalidated_getElem? judge t.results 1 0, hr]
      simp [hun, countUnvalidated]
    | succ m =>
      have hfrom : (validate_batch_from judge t (m + 1) 1).results =
          t.results.take (m + 1) ++
            updateUnvalidated judge (t.results.drop (m + 1)) 1 := by
        unfold validate_batch_from
        rw [if_pos (by omega)]
        rfl
      have hlen : m + 1 < t.results.length := (List.getElem?_eq_some_iff.mp hr).1
      have hL1 : (t.results.take (m + 1)).length = m + 1 := by
        rw [List.length_take]
        omega
      rw [hfrom, List.getElem?_append_right (by omega), hL1]
      have hidx : m + 1 - (m + 1) = 0 := by omega
      rw [hidx, updateUnvalidated_getElem? judge (t.results.drop (m + 1)) 1 0,
          List.getElem?_drop, Nat.add_zero, hr]
      simp [hun, countUnvalidated]
  · intro i hi
    cases off with
    | zero =>
      have hfrom : (validate_batch_from judge t 0 1).results =
          updateUnvalidated judge t.results 1 := by
        unfold validate_batch_from
        rw [if_neg (by omega)]
        rfl
      rw [hfrom, updateUnvalidated_getElem? judge t.results 1 i]
      cases i with
      | zero => exact absurd rfl hi
      | succ j =>
        cases hc : t.results[j + 1]? with
        | none => rfl
        | some x =>
          have hpos := countUnvalidated_take_pos t.results r j hr hun
          simp [hpos]
    | succ m =>
      have hfrom : (validate_batch_from judge t (m + 1) 1).results =
          t.results.take (m + 1) ++
            updateUnvalidated judge (t.results.drop (m + 1)) 1 := by
        unfold validate_batch_from
        rw [if_pos (by omega)]
        rfl
      have hlen : m + 1 < t.results.length := (List.getElem?_eq_some_iff.mp hr).1
      have hL1 : (t.results.take (m + 1)).length = m + 1 := by
        rw [List.length_take]
        omega
      rw [hfrom]
      rcases Nat.lt_trichotomy i (m + 1) with hlt | heq | hgt
      · rw [List.getElem?_append, hL1, if_pos hlt, List.getElem?_take, if_pos hlt]
      · exact absurd heq hi
      · obtain ⟨j, hj⟩ := Nat.exists_eq_add_of_lt hgt
        rw [List.getElem?_append_right (by omega), hL1]
        have hidx : i - (m + 1) = j + 1 := by omega
        rw [hidx, updateUnvalidated_getElem? judge (t.results.drop (m + 1)) 1 (j + 1),
            List.getElem?_drop]
        have hi2 : m + 1 + (j + 1) = i := by omega
        rw [hi2]
        cases hc : t.results[i]? with
        | none => rfl
        | some x =>
          have h0 : (t.results.drop (m + 1))[0]? = some r := by
            rw [List.getElem?_drop, Nat.add_zero]
            exact hr
          have hpos := countUnvalidated_take_pos (t.results.drop (m + 1)) r j h0 hun
          simp [hpos]

/-- A stored openai judgment, for the offset witness. -/
def sampleOpenAIValidation : OpenAIValidation :=
  { status := false, reason := "bad", model := "gpt-4", response := "r0",
    timestamp := "t1" }

/-- A result whose openai channel is already populated, for the offset
witness. -/
def sampleValidatedResult : Result :=
  { context := "b", modelResponse := "no", timestamp := "t0",
    validations := some { manual := none, openai := some sampleOpenAIValidation } }

/-- A run whose first result is already judged and whose second is not. -/
def sampleRun2 : TestRun :=
  { runId := "run_20240102_000000", projectName := "proj", promptId := "prompt_1",
    promptText := "Say yes", timestamp := "2024-01-02T00:00:00",
    results := [sampleValidatedResult, sampleResult] }

/-- Witness for C9: on `sampleRun2` the result at offset 1 is unvalidated,
and a count-1 batch started at offset 1 validates exactly it. -/
theorem validate_batch_offset_witness :
    (sampleRun2.results[1]? = some sampleResult ∧
      hasOpenai sampleResult = false) ∧
    (validate_batch_from sampleJudge sampleRun2 1 1).results[1]? =
      some (setOpenai sampleResult (sampleJudge sampleResult)) :=
  ⟨⟨rfl, rfl⟩,
   (validate_batch_offset sampleJudge sampleRun2 1 sampleResult rfl rfl).2.1⟩

/-! ## C6: judge failures become failure judgments -/

/-- C6: on transport failure, HTTP error, an unusable completion envelope,
judge-reply content that fails to parse as JSON, or parsed content lacking
the `valid` or `reason` field, `validate_response` returns (instead of
raising) a judgment with status `False`, a reason beginning
`"Validation failed:"` and no `response` field; and a batch containing such
failures still completes for all selected items: every one of the `count`
selected results receives its openai channel. -/
theorem validate_response_failure (m raw e : String) (j : Json)
    (hj : j.getField? "valid" = none ∨ j.getField? "reason" = none) :
    failureShaped (validate_response m (.transportError e)) ∧
    failureShaped (validate_response m (.httpError e)) ∧
    failureShaped (validate_response m (.badEnvelope e)) ∧
    failureShaped (validate_response m (.content raw (.parseError e))) ∧
    failureShaped (validate_response m (.content raw (.parsed j))) ∧
    ∀ (judge : Result → OpenAIValidation) (t : TestRun) (count : Nat),
      count ≤ countUnvalidated t.results →
      countValidated (validate_batch judge t count).1.results =
        countValidated t.results + count := by
  refine ⟨⟨rfl, ⟨e, rfl⟩, rfl⟩, ⟨rfl, ⟨e, rfl⟩, rfl⟩, ⟨rfl, ⟨e, rfl⟩, rfl⟩,
          ⟨rfl, ⟨e, rfl⟩, rfl⟩, ?_, ?_⟩
  · cases hv : j.getField? "valid" with
    | none =>
      have hres : validate_response m (.content raw (.parsed j)) =
          validationFailure m "\x27valid\x27" := by
        simp only [validate_response, hv]
      rw [hres]
      exact ⟨rfl, ⟨_, rfl⟩, rfl⟩
    | some v =>
      have hreason : j.getField? "reason" = none := by
        rcases hj with hj | hj
        · rw [hv] at hj
          exact absurd hj (by simp)
        · exact hj
      have hres : validate_response m (.content raw (.parsed j)) =
          validationFailure m "\x27reason\x27" := by
        simp only [validate_response, hv, hreason]
      rw [hres]
      exact ⟨rfl, ⟨_, rfl⟩, rfl⟩
  · intro judge t count hc
    rw [validate_batch_results_eq]
    exact countValidated_updateUnvalidated judge t.results count hc

/-- Witness for C6: the empty JSON object lacks the `valid` field, and a
transport failure yields a failure-shaped judgment. -/
theorem validate_response_failure_witness :
    (Json.getField? (Json.obj []) "valid" = none ∨
      Json.getField? (Json.obj []) "reason" = none) ∧
    failureShaped (validate_response "gpt-4" (.transportError "timeout")) :=
  ⟨Or.inl rfl,
   (validate_response_failure "gpt-4" "raw" "timeout" (Json.obj []) (Or.inl rfl)).1⟩

/-! ## C10: the JSON context source -/

theorem docContents_of_mapM :
    ∀ (docs : List Json) (ss : List String) (i : Nat),
      docs.mapM docContent? = some ss → docContents docs i = .ok ss := by
  intro docs
  induction docs with
  | nil =>
    intro ss i h
    simp only [List.mapM_nil, pure, Option.some.injEq] at h
    subst h
    rfl
  | cons d ds ih =>
    intro ss i h
    rw [List.mapM_cons] at h
    cases hd : docContent? d with
    | none => rw [hd] at h; simp at h
    | some s =>
      rw [hd] at h
      cases hds : ds.mapM docContent? with
      | none => rw [hds] at h; simp at h
      | some ss2 =>
        rw [hds] at h
        simp only [Option.bind_some, Option.bind_eq_bind, pure,
          Option.some.injEq] at h
        cases d with
        | obj f2 =>
          cases hc : lookupField f2 "content" with
          | none => simp [docContent?, hc] at hd
          | some jc =>
            cases jc with
            | str s2 =>
              have hs : s2 = s := by simpa [docContent?, hc] using hd
              subst hs
              have hss : s2 :: ss2 = ss := by simpa using h
              subst hss
              simp [docContents, hc, ih ss2 (i + 1) hds, Except.map]
            | null => simp [docContent?, hc] at hd
            | bool b => simp [docContent?, hc] at hd
            | num n => simp [docContent?, hc] at hd
            | arr es => simp [docContent?, hc] at hd
            | obj f3 => simp [docContent?, hc] at hd
        | null => simp [docContent?] at hd
        | bool b => simp [docContent?] at hd
        | num n => simp [docContent?] at hd
        | str s3 => simp [docContent?] at hd
        | arr es => simp [docContent?] at hd

/-- C10: on a root object with a `contexts` key, `jsonParserParse` returns
exactly that array of strings — failing with FormatError when it is not an
array or not all strings — regardless of any `documents` key, so `contexts`
takes precedence; when `contexts` is absent and `documents` is an array of
objects each with a string `content` field, it returns those contents in
order. -/
theorem json_source_contexts (json_path : String) (fields : List (String × Json)) :
    (∀ (items : List Json) (ss : List String),
       lookupField fields "contexts" = some (Json.arr items) →
       stringItems items = some ss →
       jsonParserParse json_path (.parsed (Json.obj fields)) = .ok ss) ∧
    (∀ items : List Json,
       lookupField fields "contexts" = some (Json.arr items) →
       stringItems items = none →
       jsonParserParse json_path (.parsed (Json.obj fields)) =
         .error (.formatError
           (wrapMsg "All items in \x27contexts\x27 must be strings"))) ∧
    (∀ c : Json, lookupField fields "contexts" = some c →
       (∀ items : List Json, c ≠ Json.arr items) →
       jsonParserParse json_path (.parsed (Json.obj fields)) =
         .error (.formatError (wrapMsg "\x27contexts\x27 must be an array"))) ∧
    (lookupField fields "contexts" = none →
       ∀ (docs : List Json) (ss : List String),
         lookupField fields "documents" = some (Json.arr docs) →
         docs.mapM docContent? = some ss →
         jsonParserParse json_path (.parsed (Json.obj fields)) = .ok ss) := by
  refine ⟨?_, ?_, ?_, ?_⟩
  · intro items ss hfind hitems
    simp only [jsonParserParse, hfind, hitems]
  · intro items hfind hitems
    simp only [jsonParserParse, hfind, hitems]
  · intro c hfind hne
    cases c with
    | arr items => exact absurd rfl (hne items)
    | null => simp only [jsonParserParse, hfind]
    | bool b => simp only [jsonParserParse, hfind]
    | num n => simp only [jsonParserParse, hfind]
    | str s => simp only [jsonParserParse, hfind]
    | obj f2 => simp only [jsonParserParse, hfind]
  · intro hnone docs ss hdocs hmap
    simp only [jsonParserParse, hnone, hdocs, docContents_of_mapM docs ss 0 hmap]

/-- A root object carrying only a `documents` array, for the C10 witness. -/
def sampleDocFields : List (String × Json) :=
  [("documents", Json.arr [Json.obj [("content", Json.str "x")],
                           Json.obj [("content", Json.str "y")]])]

/-- Witness for C10: a `documents`-only file yields its `content` values in
order. -/
theorem json_source_contexts_witness :
    (lookupField sampleDocFields "contexts" = none ∧
      lookupField sampleDocFields "documents" =
        some (Json.arr [Json.obj [("content", Json.str "x")],
                        Json.obj [("content", Json.str "y")]]) ∧
      [Json.obj [("content", Json.str "x")],
       Json.obj [("content", Json.str "y")]].mapM docContent? = some ["x", "y"]) ∧
    jsonParserParse "docs.json" (.parsed (Json.obj sampleDocFields)) =
      .ok ["x", "y"] :=
  ⟨⟨rfl, rfl, rfl⟩,
   (json_source_contexts "docs.json" sampleDocFields).2.2.2 rfl
     [Json.obj [("content", Json.str "x")], Json.obj [("content", Json.str "y")]]
     ["x", "y"] rfl rfl⟩

/-! ## C5: statistics invariants of `list_test_runs` -/

theorem manual_head_split (r : Result) :
    (if (manualOf r).isSome = true then 1 else 0) =
      (if decide (manualStatusOf r = some ManualStatus.valid) = true then 1 else 0) +
      (if decide (manualStatusOf r = some ManualStatus.invalid) = true then 1 else 0) +
      (if decide (manualStatusOf r = some ManualStatus.skipped) = true then 1 else 0) := by
  cases hm : manualOf r with
  | none => simp [manualStatusOf, hm]
  | some mv => cases hs : mv.status <;> simp [manualStatusOf, hm, hs]

theorem manual_count_split (rs : List Result) :
    (rs.countP fun r => (manualOf r).isSome) =
      (rs.countP fun r => decide (manualStatusOf r = some ManualStatus.valid)) +
      (rs.countP fun r => decide (manualStatusOf r = some ManualStatus.invalid)) +
      (rs.countP fun r => decide (manualStatusOf r = some ManualStatus.skipped)) := by
  induction rs with
  | nil => rfl
  | cons r rest ih =>
    simp only [List.countP_cons]
    rw [ih, manual_head_split r]
    omega

theorem openai_head_split (r : Result) :
    (if (openaiOf r).isSome = true then 1 else 0) =
      (if decide (openaiStatusOf r = some true) = true then 1 else 0) +
      (if decide (openaiStatusOf r = some false) = true then 1 else 0) := by
  cases ho : openaiOf r with
  | none => simp [openaiStatusOf, ho]
  | some ov => cases hs : ov.status <;> simp [openaiStatusOf, ho, hs]

theorem openai_count_split (rs : List Result) :
    (rs.countP fun r => (openaiOf r).isSome) =
      (rs.countP fun r => decide (openaiStatusOf r = some true)) +
      (rs.countP fun r => decide (openaiStatusOf r = some false)) := by
  induction rs with
  | nil => rfl
  | cons r rest ih =>
    simp only [List.countP_cons]
    rw [ih, openai_head_split r]
    omega

theorem ratio_progress_bounds (a n : Nat) (h : a ≤ n) :
    0 ≤ (if n > 0 then (a : Rat) / (n : Rat) * 100 else 0) ∧
    (if n > 0 then (a : Rat) / (n : Rat) * 100 else 0) ≤ 100 := by
  by_cases hn : n > 0
  · rw [if_pos hn]
    have hb : (0 : Rat) < (n : Rat) := by exact_mod_cast hn
    have h1 : (a : Rat) / (n : Rat) ≤ 1 := by
      rw [div_le_one hb]
      exact_mod_cast h
    have h0 : (0 : Rat) ≤ (a : Rat) / (n : Rat) := by positivity
    constructor
    · nlinarith
    · nlinarith
  · rw [if_neg hn]
    norm_num

theorem computeStats_invariants (t : TestRun) :
    (computeStats t).openai.validated =
      (computeStats t).openai.success + (computeStats t).openai.failed ∧
    (computeStats t).manual.validated =
      (computeStats t).manual.success + (computeStats t).manual.failed +
        (computeStats t).manual.skipped ∧
    0 ≤ (computeStats t).manual.progress ∧ (computeStats t).manual.progress ≤ 100 ∧
    0 ≤ (computeStats t).openai.progress ∧ (computeStats t).openai.progress ≤ 100 := by
  have hm := manual_count_split t.results
  have ho := openai_count_split t.results
  have hpb1 := ratio_progress_bounds
    (t.results.countP fun r => (manualOf r).isSome) t.results.length
    (List.countP_le_length _)
  have hpb2 := ratio_progress_bounds
    (t.results.countP fun r => (openaiOf r).isSome) t.results.length
    (List.countP_le_length _)
  simp only [computeStats]
  exact ⟨ho, hm, hpb1.1, hpb1.2, hpb2.1, hpb2.2⟩

/-- C5: every entry returned by `list_test_runs` carries statistics with
validated = success + failed on the openai channel,
validated = success + failed + skipped on the manual channel, and a
progress percentage between 0 and 100 on both channels. -/
theorem list_stats_invariants (store : Store) (project_name : String)
    (e : RunListing) (he : e ∈ list_test_runs store project_name) :
    e.stats.openai.validated = e.stats.openai.success + e.stats.openai.failed ∧
    e.stats.manual.validated =
      e.stats.manual.success + e.stats.manual.failed + e.stats.manual.skipped ∧
    0 ≤ e.stats.manual.progress ∧ e.stats.manual.progress ≤ 100 ∧
    0 ≤ e.stats.openai.progress ∧ e.stats.openai.progress ≤ 100 := by
  simp only [list_test_runs] at he
  have he2 := List.mem_mergeSort.mp he
  obtain ⟨ent, hent, hmap⟩ := List.mem_filterMap.mp he2
  cases hdec : decodeTestRun ent.2 with
  | none =>
    rw [hdec] at hmap
    exact absurd hmap (by simp)
  | some t =>
    rw [hdec] at hmap
    have he3 : listingOf t = e := by simpa using hmap
    subst he3
    exact computeStats_invariants t

/-- Witness for C5: the listing of `sampleStore` for project "proj" contains
the entry of `sampleRun`, and its openai counts split as claimed. -/
theorem list_stats_invariants_witness :
    (listingOf sampleRun ∈ list_test_runs sampleStore "proj") ∧
    (listingOf sampleRun).stats.openai.validated =
      (listingOf sampleRun).stats.openai.success +
        (listingOf sampleRun).stats.openai.failed := by
  have hlist : list_test_runs sampleStore "proj" =
      List.mergeSort [listingOf sampleRun]
        (fun a b => decide (b.timestamp ≤ a.timestamp)) := by
    simp only [list_test_runs, sampleStore]
    rfl
  have hm : listingOf sampleRun ∈ list_test_runs sampleStore "proj" := by
    rw [hlist]
    exact List.mem_mergeSort.mpr (List.mem_singleton.mpr rfl)
  exact ⟨hm, (list_stats_invariants sampleStore "proj" (listingOf sampleRun) hm).1⟩

end PromptBench
